import Mathlib

/-!
# Product image pipeline — a shallow embedding

This file embeds the product-image pipeline of the board-game storefront
backend (`src/products/service.py`, `src/products/interfaces/views.py`,
`src/products/interfaces/serializers.py`, `src/products/infrastructure/models.py`,
`src/s3.py`) and proves properties of the embedded code.

Modelling conventions:
* Machine integers are `Nat`/`Int`; database rows are records in a list.
* The object store is a list of `(key, blob)` pairs; `storage.save`,
  `storage.url`, `storage.delete` are explicit functions over it.
* Calls that can raise (PIL decode, `storage.save`, `storage.delete`,
  the CloudFront client) are driven by explicit outcome oracles passed in a
  world record; a raise is modelled by the function short-circuiting with the
  state it had at the raise point, exactly where the Python `try`/`except`
  blocks put it.
* Pillow's float arithmetic in `Image.thumbnail` is modelled with exact
  rational comparisons (cross-multiplication over `Nat`).
-/

/-! ## Pillow image model

`PILMode` lists the color modes Pillow's file decoders produce for the web
image formats in scope (JPEG, PNG, GIF, WebP, BMP): `1`, `L`, `LA`, `I`, `P`,
`RGB`, `RGBA`, `CMYK`, `YCbCr`.  `one` stands for mode `"1"`. -/

inductive PILMode
  | one | L | LA | I | P | RGB | RGBA | CMYK | YCbCr
  deriving DecidableEq, Repr

/-- A decoded Pillow image: its mode, pixel dimensions, and whether its
`info` dict carries a `"transparency"` entry (only meaningful for `P`). -/
structure PILImage where
  mode : PILMode
  width : Nat
  height : Nat
  transparencyInfo : Bool
  deriving DecidableEq, Repr

/-- Ceiling division on `Nat`: `ceilDiv a b = ⌈a / b⌉` for `b > 0`. -/
def ceilDiv (a b : Nat) : Nat := (a + b - 1) / b

/-- The helper `round_aspect(number, key)` from PIL `Image.thumbnail`, specialised to the
width branch: `number = y * w / h` and `key n = |w/h - n/y|`.  The candidate
minimising the key is chosen (floor on ties, as Python `min` keeps the first
argument), and the result is clamped to at least 1.  The key comparison
`|w/h - fl/y| ≤ |w/h - ce/y|` is done exactly as
`|fl*h - w*y| ≤ |ce*h - w*y|` (both sides scaled by `h*y`). -/
def roundAspectW (w h y : Nat) : Nat :=
  let fl := y * w / h
  let ce := ceilDiv (y * w) h
  max (if Nat.dist (fl * h) (w * y) ≤ Nat.dist (ce * h) (w * y) then fl else ce) 1

/-- The helper `round_aspect` for the height branch of PIL `Image.thumbnail`:
`number = x * h / w` and `key n = 0` if `n = 0` else `|w/h - x/n|`.
For positive candidates the key comparison is scaled by `h * fl * ce`:
`|w*fl - x*h| * ce ≤ |w*ce - x*h| * fl`. -/
def roundAspectH (w h x : Nat) : Nat :=
  let fl := x * h / w
  let ce := ceilDiv (x * h) w
  let flWins : Bool :=
    if fl = 0 then true
    else decide (Nat.dist (w * fl) (x * h) * ce ≤ Nat.dist (w * ce) (x * h) * fl)
  max (if flWins then fl else ce) 1

/-- PIL `Image.thumbnail((bx, bh))` dimension computation: if the image
already fits the box nothing changes; otherwise the side that would overflow
is derived from the box and the aspect ratio `w/h` via `round_aspect`.
The branch test `bx / bh ≥ w / h` is the exact comparison `bx * h ≥ w * bh`. -/
def thumbnailSize (w h bx bh : Nat) : Nat × Nat :=
  if w ≤ bx ∧ h ≤ bh then (w, h)
  else if w * bh ≤ bx * h then (roundAspectW w h bh, bh)
  else (bx, roundAspectH w h bx)

/-- The color-mode normalisation done before each variant in
`process_and_upload_product_image`:
`if img.mode in ("RGBA", "LA", "P"): img = img.convert("RGB")`. -/
def convertIfAlphaOrPalette (img : PILImage) : PILImage :=
  if img.mode = .RGBA ∨ img.mode = .LA ∨ img.mode = .P then
    { img with mode := .RGB, transparencyInfo := false }
  else img

/-- Whether a mode name contains an alpha channel marker (`A` or `a`),
as tested by Pillow's WebP encoder. -/
def PILMode.alphaChar : PILMode → Bool
  | .RGBA | .LA => true
  | _ => false

/-- The raw mode Pillow's WebP encoder saves in: modes `RGB` and `RGBA` are
kept; anything else is converted to `RGBA` when it has an alpha marker or is
a palette image with transparency info, and to `RGB` otherwise. -/
def webpSaveMode (img : PILImage) : PILMode :=
  if img.mode = .RGB ∨ img.mode = .RGBA then img.mode
  else if img.mode.alphaChar ∨ (img.mode = .P ∧ img.transparencyInfo) then .RGBA
  else .RGB

/-- Encoded output formats an image could be saved in; the pipeline always
passes `format='WEBP'`. -/
inductive ImageFormat
  | webp | jpeg | png
  deriving DecidableEq, Repr

/-- One encoded variant buffer: its pixel dimensions, the raw mode it was
encoded from, the container format, and the encoder quality setting. -/
structure Variant where
  width : Nat
  height : Nat
  mode : PILMode
  format : ImageFormat
  quality : Nat
  deriving DecidableEq, Repr

/-- One resize-and-encode block of `process_and_upload_product_image`:
normalise the color mode, `thumbnail((box, box), LANCZOS)`, then
`save(format='WEBP', quality=q, method=6)`. -/
def makeVariant (img : PILImage) (box quality : Nat) : Variant :=
  let img2 := convertIfAlphaOrPalette img
  let sz := thumbnailSize img2.width img2.height box box
  { width := sz.1, height := sz.2, mode := webpSaveMode img2,
    format := .webp, quality := quality }

/-- The three variants produced by `process_and_upload_product_image`:
large (1200, quality 85), medium (600, quality 80), small (300, quality 75).
The source re-opens the upload for each block, so each block sees the same
decoded image. -/
def generateVariants (img : PILImage) : Variant × Variant × Variant :=
  (makeVariant img 1200 85, makeVariant img 600 80, makeVariant img 300 75)

/-! ## Data model: products, image metadata rows, the object store

From `src/products/infrastructure/models.py` (`Product`, `ProductImage`) and
`src/s3.py` (`MediaStorage`: bucket `bg-shop-images`, custom domain
`cdn.bgshop.work.gd`, so `storage.url(key)` is `https://{domain}/{key}`). -/

/-- A `Product` row; only the primary key matters to the image pipeline. -/
structure Product where
  id : Nat
  deriving DecidableEq, Repr

/-- A `ProductImage` metadata row. -/
structure ProductImage where
  id : Nat
  productId : Nat
  url_original : String
  url_lg : String
  url_md : String
  url_sm : String
  alt : String
  sort : Nat
  deriving DecidableEq, Repr

/-- The relational table of `ProductImage` rows plus the auto-increment
counter for the surrogate primary key. -/
structure DB where
  rows : List ProductImage
  nextId : Nat
  deriving DecidableEq, Repr

/-- An uploaded file as the view hands it to the service: its client-side
filename, the decoded Pillow image (`none` when `Image.open` cannot identify
the payload as an image, e.g. a text file), and whether fully loading the
pixel data succeeds (`false` for truncated-but-identified payloads, whose
first `copy`/`thumbnail` raises). -/
structure UploadFile where
  name : String
  image : Option PILImage
  loadOk : Bool
  deriving DecidableEq, Repr

/-- A stored blob: one of the encoded variant buffers or the original file. -/
inductive Blob
  | variantBuffer (v : Variant)
  | originalFile (f : UploadFile)
  deriving DecidableEq, Repr

/-- The object store: stored keys with their blobs. -/
abbrev Store := List (String × Blob)

/-- Models `storage.save(key, content)`; with the randomized-suffix policy the key
is stored as given. -/
def storageSave (store : Store) (key : String) (blob : Blob) : Store :=
  store ++ [(key, blob)]

/-- Models `storage.url(key)` for `MediaStorage`: the custom-domain public URL. -/
def storageUrl (key : String) : String :=
  "https://" ++ "cdn.bgshop.work.gd" ++ "/" ++ key

/-- Models `storage.delete(key)`: removes the blob under `key` (a no-op when the
key is absent). -/
def storageDelete (store : Store) (key : String) : Store :=
  store.filter (fun b => b.1 ≠ key)

/-- Models `os.path.splitext(name)`: split off the extension at the last dot,
except that a basename consisting only of leading dots has no extension. -/
def splitExt (name : String) : String × String :=
  let cs := name.toList
  let lastDot := (List.range cs.length).filter
    (fun i => cs.getD i ' ' = '.' ∧ ¬ (cs.take i).all (fun c => c = '.'))
  match lastDot.getLast? with
  | none => (name, "")
  | some i => (String.mk (cs.take i), String.mk (cs.drop i))

/-! ## The upload orchestrator — `process_and_upload_product_image` -/

/-- Outcomes injected into one upload request: whether the n-th
`storage.save` call raises (calls 0,1,2 are the lg/md/sm variant writes,
call 3 writes the original), and the n-th `os.urandom(3).hex()` draw. -/
structure UploadWorld where
  saveOk : Nat → Bool
  suffix : Nat → String

/-- How an upload request can fail inside the service. -/
inductive UploadError
  | imageProcessing
  | storage (callIndex : Nat)
  deriving DecidableEq, Repr

/-- The state and result returned by one run of the service. -/
structure UploadOutcome where
  store : Store
  db : DB
  result : Except UploadError ProductImage

/-- Models `product.images.aggregate(models.Max('sort'))['sort__max'] or 0`:
the maximum `sort` over the product's rows, `0` when there are none. -/
def maxSortForProduct (db : DB) (productId : Nat) : Nat :=
  ((db.rows.filter (fun r => r.productId = productId)).map
    (fun r => r.sort)).foldr max 0

/-- Models `process_and_upload_product_image(product, image_file, alt_text)` from
`src/products/service.py`: decode, derive the three WEBP variants, save
lg → md → sm → original to storage, compute `max(sort) + 1`, then create the
metadata row last.  Any raise (decode/load failure, or a failing save)
propagates with the store as written so far and the database untouched. -/
def process_and_upload_product_image (w : UploadWorld) (product : Product)
    (image_file : UploadFile) (alt_text : String) (store : Store) (db : DB) :
    UploadOutcome :=
  match image_file.image with
  | none => ⟨store, db, .error .imageProcessing⟩
  | some img =>
    if ¬ image_file.loadOk then ⟨store, db, .error .imageProcessing⟩
    else
      let variants := generateVariants img
      let base_filename := toString product.id ++ "_" ++ (splitExt image_file.name).1
      let keyLg := "products/lg/" ++ base_filename ++ "_lg_" ++ w.suffix 0 ++ ".webp"
      let keyMd := "products/md/" ++ base_filename ++ "_md_" ++ w.suffix 1 ++ ".webp"
      let keySm := "products/sm/" ++ base_filename ++ "_sm_" ++ w.suffix 2 ++ ".webp"
      if ¬ w.saveOk 0 then ⟨store, db, .error (.storage 0)⟩
      else
        let store0 := storageSave store keyLg (.variantBuffer variants.1)
        let url_lg := storageUrl keyLg
        if ¬ w.saveOk 1 then ⟨store0, db, .error (.storage 1)⟩
        else
          let store1 := storageSave store0 keyMd (.variantBuffer variants.2.1)
          let url_md := storageUrl keyMd
          if ¬ w.saveOk 2 then ⟨store1, db, .error (.storage 2)⟩
          else
            let store2 := storageSave store1 keySm (.variantBuffer variants.2.2)
            let url_sm := storageUrl keySm
            let keyOrig := "products/original/" ++ base_filename ++ "_original_"
              ++ w.suffix 3 ++ (splitExt image_file.name).2
            if ¬ w.saveOk 3 then ⟨store2, db, .error (.storage 3)⟩
            else
              let store3 := storageSave store2 keyOrig (.originalFile image_file)
              let url_original := storageUrl keyOrig
              let new_sort_value := maxSortForProduct db product.id + 1
              let row : ProductImage :=
                { id := db.nextId, productId := product.id,
                  url_original := url_original, url_lg := url_lg,
                  url_md := url_md, url_sm := url_sm,
                  alt := alt_text, sort := new_sort_value }
              ⟨store3, ⟨db.rows ++ [row], db.nextId + 1⟩, .ok row⟩

/-! ## Upload orchestrator properties -/

/-- A world where every storage call succeeds and every random draw is a
fixed hex string. -/
def wAllOk : UploadWorld := ⟨fun _ => true, fun _ => "abc123"⟩

/-- A decodable 800×600 RGB upload named `photo.png`. -/
def fileOk : UploadFile := ⟨"photo.png", some ⟨.RGB, 800, 600, false⟩, true⟩

/-- An empty image table. -/
def dbEmpty : DB := ⟨[], 1⟩

/-- First concrete upload run: product 7, empty store and table. -/
def runOk : UploadOutcome :=
  process_and_upload_product_image wAllOk ⟨7⟩ fileOk "alt text" [] dbEmpty

/-- The row created by `runOk`. -/
def rowOk : ProductImage :=
  match runOk.result with
  | .ok r => r
  | .error _ => ⟨0, 0, "", "", "", "", "", 0⟩

/-- Second concrete upload run, on the state left by `runOk`. -/
def runOk2 : UploadOutcome :=
  process_and_upload_product_image wAllOk ⟨7⟩ fileOk "second" runOk.store runOk.db

/-- The row created by `runOk2`. -/
def rowOk2 : ProductImage :=
  match runOk2.result with
  | .ok r => r
  | .error _ => ⟨0, 0, "", "", "", "", "", 0⟩

/-! ## URL key extraction and the CloudFront cache invalidator -/

/-- Models the key extraction helper of `src/products/service.py`: empty URLs give
an empty key; otherwise take `urlparse(url).path` (for `scheme://host/path`
URLs the part from the first slash after the authority, with any query or
fragment excluded; for scheme-less strings the whole string) and strip the
leading slashes. -/
def extract_key_from_url (url : String) : String :=
  if url = "" then ""
  else
    let path :=
      match url.splitOn "://" with
      | _scheme :: rest :: more =>
        String.mk ((String.intercalate "://" (rest :: more)).toList.dropWhile
          (fun c => c != '/'))
      | _ => url
    String.mk ((path.toList.takeWhile (fun c => c != '?' && c != '#')).dropWhile
      (fun c => c == '/'))

/-- Environment configuration read by `invalidate_cloudfront_cache`:
`AWS_CLOUDFRONT_DISTRIBUTION_ID`, `AWS_S3_ACCESS_KEY_ID`,
`AWS_S3_SECRET_ACCESS_KEY` (`none` models unset-or-empty, which Python's
truthiness test treats alike). -/
structure CFConfig where
  distributionId : Option String
  accessKeyId : Option String
  secretAccessKey : Option String
  deriving DecidableEq, Repr

/-- What the provider call does when reached. -/
inductive CFCallOutcome
  | success (invalidationId : String)
  | noCredentialsError
  | clientError (code message : String)
  | unexpectedError (message : String)
  deriving DecidableEq, Repr

/-- Configuration plus the injected provider behaviour. -/
structure CFWorld where
  cfg : CFConfig
  callOutcome : CFCallOutcome
  deriving DecidableEq, Repr

/-- The observable effect of one `invalidate_cloudfront_cache` run: the
`create_invalidation` calls made (distribution id and path batch), and
whether an error was logged.  The function always returns — exceptions are
caught inside — so there is no error component. -/
structure CFResult where
  calls : List (String × List String)
  errorLogged : Bool
  deriving DecidableEq, Repr

/-- The boto3 `create_invalidation` call: returns the invalidation id or
raises one of the modelled exceptions. -/
def create_invalidation (w : CFWorld) (_distribution_id : String)
    (_paths : List String) : Except CFCallOutcome String :=
  match w.callOutcome with
  | .success invId => .ok invId
  | e => .error e

/-- Models `invalidate_cloudfront_cache(paths_to_invalidate)` from
`src/products/service.py`: missing distribution id → deliberate no-op;
empty path list → no-op; missing credentials → error logged, return; then a
single `create_invalidation` attempt whose exceptions
(`NoCredentialsError`, `ClientError`, anything else) are logged and
swallowed by the surrounding `try`/`except`. -/
def invalidate_cloudfront_cache (w : CFWorld) (paths_to_invalidate : List String) :
    CFResult :=
  match w.cfg.distributionId with
  | none => ⟨[], false⟩
  | some distribution_id =>
    if paths_to_invalidate.isEmpty then ⟨[], false⟩
    else
      match w.cfg.accessKeyId, w.cfg.secretAccessKey with
      | some _, some _ =>
        match create_invalidation w distribution_id paths_to_invalidate with
        | .ok _invId => ⟨[(distribution_id, paths_to_invalidate)], false⟩
        | .error _e => ⟨[(distribution_id, paths_to_invalidate)], true⟩
      | _, _ => ⟨[], true⟩

/-! ## Deletion — `delete_product_image_files` and the delete view -/

/-- Outcomes injected into one deletion request: whether the
`storage.delete` call for the n-th URL field raises, plus the CloudFront
world. -/
structure DeleteWorld where
  deleteOk : Nat → Bool
  cf : CFWorld

/-- The four URL fields scanned by `delete_product_image_files`, in source
order: `url_original`, `url_lg`, `url_md`, `url_sm`. -/
def urlFields (product_image : ProductImage) : List String :=
  [product_image.url_original, product_image.url_lg, product_image.url_md,
   product_image.url_sm]

/-- The field loop of `delete_product_image_files`: for each non-empty URL
whose key extraction is non-empty, call `storage.delete`; when it raises the
error is logged and nothing is appended; otherwise the key is appended to
`deleted_keys` and `/key` to `paths_to_invalidate`. Returns
(store, deleted_keys, paths_to_invalidate). -/
def deleteFilesLoop (w : DeleteWorld) :
    List (Nat × String) → Store → Store × List String × List String
  | [], store => (store, [], [])
  | (i, url) :: rest, store =>
    if url ≠ "" then
      let key := extract_key_from_url url
      if key ≠ "" then
        if w.deleteOk i then
          let r := deleteFilesLoop w rest (storageDelete store key)
          (r.1, key :: r.2.1, ("/" ++ key) :: r.2.2)
        else deleteFilesLoop w rest store
      else deleteFilesLoop w rest store
    else deleteFilesLoop w rest store

/-- The result of `delete_product_image_files`. -/
structure DeleteFilesResult where
  store : Store
  deleted_keys : List String
  paths_to_invalidate : List String
  cfResult : Option CFResult

/-- Models `delete_product_image_files(product_image)` from
`src/products/service.py`: loop over the four URL fields, then invalidate
the CloudFront cache for the collected paths, skipping the call entirely
when no file was deleted. -/
def delete_product_image_files (w : DeleteWorld) (product_image : ProductImage)
    (store : Store) : DeleteFilesResult :=
  let r := deleteFilesLoop w (urlFields product_image).enum store
  if r.2.2 ≠ [] then
    ⟨r.1, r.2.1, r.2.2, some (invalidate_cloudfront_cache w.cf r.2.2)⟩
  else ⟨r.1, r.2.1, r.2.2, none⟩

/-- HTTP status equivalents used by the image views. -/
inductive HttpStatus
  | ok200 | created201 | noContent204 | badRequest400 | notFound404
  | serverError500
  deriving DecidableEq, Repr

/-- The observable outcome of `ProductImageDeleteView.delete`. -/
structure DeleteViewResult where
  status : HttpStatus
  db : DB
  store : Store
  filesResult : Option DeleteFilesResult

/-- Models `ProductImageDeleteView.delete` from
`src/products/interfaces/views.py`: 404 when the product is missing, 404
when no image with that pk belongs to the product, otherwise best-effort
file deletion (its exceptions are caught and logged) followed
unconditionally by `image.delete()` and a 204. -/
def productImageDeleteView (w : DeleteWorld) (products : List Product)
    (db : DB) (store : Store) (product_id image_id : Nat) : DeleteViewResult :=
  match products.find? (fun p => p.id == product_id) with
  | none => ⟨.notFound404, db, store, none⟩
  | some _product =>
    match db.rows.find? (fun r => (r.id == image_id) &&
        (r.productId == product_id)) with
    | none => ⟨.notFound404, db, store, none⟩
    | some image =>
      let fr := delete_product_image_files w image store
      ⟨.noContent204, ⟨db.rows.filter (fun r => r.id ≠ image_id), db.nextId⟩,
        fr.store, some fr⟩

/-! ## Deletion and invalidation properties -/

/-- A metadata row with properly formed storage URLs, used as a concrete
deletion target. -/
def imgRow5 : ProductImage :=
  ⟨5, 1, storageUrl "products/original/o.png", storageUrl "products/lg/l.webp",
   storageUrl "products/md/m.webp", storageUrl "products/sm/s.webp", "alt", 1⟩

/-- A deletion world where every `storage.delete` call raises. -/
def wDelAllFail : DeleteWorld :=
  ⟨fun _ => false,
   ⟨⟨some "DIST", some "key", some "secret"⟩,
    .clientError "Throttling" "rate exceeded"⟩⟩

/-! ## Upload serializer and view — `ProductImageUploadSerializer`,
`ProductImageUploadView.post` -/

/-- The raw multipart payload: optional fields are `none` when absent. -/
structure UploadPayload where
  image : Option UploadFile
  alt : Option String
  sort : Option Int
  deriving DecidableEq, Repr

/-- The serializer's `validated_data` (defaults applied: `alt` → `""`,
`sort` → `0`). -/
structure ValidatedUpload where
  image : UploadFile
  alt : String
  sort : Int
  deriving DecidableEq, Repr

/-- Models `ProductImageUploadSerializer`: `image` is a required DRF `ImageField`,
which verifies via Pillow that the payload is a valid image and rejects
undecodable content as a field validation error; `alt` is optional, blank
allowed, at most 255 characters; `sort` is optional with `min_value=0`. -/
def runUploadSerializer (data : UploadPayload) : Except Unit ValidatedUpload :=
  match data.image with
  | none => .error ()
  | some f =>
    if f.image.isNone then .error ()
    else if (match data.alt with | none => false | some a => 255 < a.length)
      then .error ()
    else if (match data.sort with | none => false | some s => s < 0)
      then .error ()
    else .ok ⟨f, data.alt.getD "", data.sort.getD 0⟩

/-- The observable outcome of `ProductImageUploadView.post`. -/
structure UploadViewResult where
  status : HttpStatus
  store : Store
  db : DB
  body : Option ProductImage

/-- The view's translation of the service outcome: any exception becomes a
500 with no body, success becomes a 201 carrying the serialized row. -/
def uploadRespond (o : UploadOutcome) : UploadViewResult :=
  match o.result with
  | .error _ => ⟨.serverError500, o.store, o.db, none⟩
  | .ok row => ⟨.created201, o.store, o.db, some row⟩

/-- Models `ProductImageUploadView.post` from `src/products/interfaces/views.py`:
404 when the product does not exist; 400 with field errors when the
serializer rejects the payload; otherwise run the service with the
validated image and the stripped alt text, answering 500 when it raises and
201 with the created row otherwise.  The validated `sort` value is never
read. -/
def productImageUploadPost (w : UploadWorld) (products : List Product)
    (store : Store) (db : DB) (product_id : Nat) (data : UploadPayload) :
    UploadViewResult :=
  match products.find? (fun p => p.id == product_id) with
  | none => ⟨.notFound404, store, db, none⟩
  | some product =>
    match runUploadSerializer data with
    | .error _ => ⟨.badRequest400, store, db, none⟩
    | .ok v =>
      uploadRespond (process_and_upload_product_image w product v.image
        v.alt.trim store db)

/-- A text-file payload: Pillow cannot identify it as an image. -/
def textFilePayload : UploadPayload := ⟨some ⟨"notes.txt", none, false⟩, none, none⟩

/-- Validity of the optional `sort` field alone (`min_value=0`, absent
allowed). -/
def sortFieldValid : Option Int → Bool
  | none => true
  | some s => decide (0 ≤ s)

/-- A payload with sort override 5. -/
def payloadSortA : UploadPayload := ⟨some fileOk, some "alt", some 5⟩

/-- The same payload with sort override 0. -/
def payloadSortB : UploadPayload := ⟨some fileOk, some "alt", some 0⟩

/-! ## Reordering — `ProductImageReorderView.patch` -/

/-- One validated `{id, sort}` pair of the reorder batch. -/
structure ReorderItem where
  id : Nat
  sort : Nat
  deriving DecidableEq, Repr

/-- The view's update loop: pairs are applied one by one in list order; each
pair's row is fetched by pk scoped to the product and its `sort` saved
immediately (autocommit — `ATOMIC_REQUESTS` is not set); the first pair
whose id has no row in this product raises `ValidationError` naming the id,
leaving the updates already applied in place. -/
def applyReorder (product_id : Nat) :
    List ReorderItem → List ProductImage → List ProductImage × Option Nat
  | [], rows => (rows, none)
  | item :: rest, rows =>
    if rows.any (fun r => (r.id == item.id) && (r.productId == product_id)) then
      applyReorder product_id rest
        (rows.map (fun r =>
          if r.id = item.id then { r with sort := item.sort } else r))
    else (rows, some item.id)

/-- The observable outcome of `ProductImageReorderView.patch`: the status,
the table afterwards, and the id named by the validation error, if any. -/
structure ReorderViewResult where
  status : HttpStatus
  db : DB
  invalidId : Option Nat

/-- Models `ProductImageReorderView.patch` from
`src/products/interfaces/views.py`: 404 when the product is missing,
otherwise the update loop; a `ValidationError` becomes a 400 naming the
offending id, with prior updates kept (no rollback); success answers 200. -/
def productImageReorderView (products : List Product) (db : DB)
    (product_id : Nat) (images : List ReorderItem) : ReorderViewResult :=
  match products.find? (fun p => p.id == product_id) with
  | none => ⟨.notFound404, db, none⟩
  | some _product =>
    match applyReorder product_id images db.rows with
    | (rows2, none) => ⟨.ok200, ⟨rows2, db.nextId⟩, none⟩
    | (rows2, some badId) => ⟨.badRequest400, ⟨rows2, db.nextId⟩, some badId⟩

/-- Whether some row of `rows` has primary key `image_id` and belongs to
product `product_id`. -/
def belongsTo (product_id : Nat) (rows : List ProductImage)
    (image_id : Nat) : Bool :=
  rows.any (fun r => (r.id == image_id) && (r.productId == product_id))

/-- The sort updates of a batch prefix, applied left to right. -/
def applyUpdates (items : List ReorderItem) (rows : List ProductImage) :
    List ProductImage :=
  items.foldl (fun rs item => rs.map (fun r =>
    if r.id = item.id then { r with sort := item.sort } else r)) rows

/-- A first image row of product 1. -/
def rowA : ProductImage := ⟨5, 1, "o", "l", "m", "s", "", 1⟩

/-- A second image row of product 1. -/
def rowB : ProductImage := ⟨6, 1, "o2", "l2", "m2", "s2", "", 2⟩

/-! ## Theorems -/

theorem ceilDiv_le (a b c : Nat) (hb : 0 < b) (h : a ≤ c * b) : ceilDiv a b ≤ c := by
  rw [ceilDiv, Nat.div_le_iff_le_mul_add_pred hb]
  have : b * c = c * b := Nat.mul_comm b c
  omega

theorem le_ceilDiv_mul (a b : Nat) (hb : 0 < b) : a ≤ ceilDiv a b * b := by
  rcases Nat.eq_zero_or_pos a with rfl | ha
  · exact Nat.zero_le _
  · have h1 := Nat.div_mul_le_self (a + b - 1) b
    have h2 := Nat.lt_div_mul_add (a := a + b - 1) hb
    rw [ceilDiv]
    omega

theorem ceilDiv_mul_lt (a b : Nat) (hb : 0 < b) : ceilDiv a b * b < a + b := by
  have h1 := Nat.div_mul_le_self (a + b - 1) b
  rw [ceilDiv]
  omega

theorem div_le_ceilDiv (a b : Nat) (hb : 0 < b) : a / b ≤ ceilDiv a b := by
  have h1 := Nat.div_mul_le_self a b
  have h3 := le_ceilDiv_mul a b hb
  exact Nat.le_of_mul_le_mul_right (le_trans h1 h3) hb

/-- Both `round_aspect` candidates (floor and ceiling of `a / b`), clamped to
at least 1, stay within one rounding step of the exact ratio and below the
clamped ceiling. -/
theorem roundAspect_core (a b n : Nat) (hb : 0 < b) (ha : 0 < a)
    (hn : n = a / b ∨ n = ceilDiv a b) :
    1 ≤ max n 1 ∧ max n 1 ≤ max (ceilDiv a b) 1 ∧ Nat.dist (max n 1 * b) a < b := by
  have h1 := Nat.div_mul_le_self a b
  have h2 := Nat.lt_div_mul_add (a := a) hb
  have h3 := le_ceilDiv_mul a b hb
  have h4 := ceilDiv_mul_lt a b hb
  have h5 := div_le_ceilDiv a b hb
  have hce : 1 ≤ ceilDiv a b := by
    rcases Nat.eq_zero_or_pos (ceilDiv a b) with hz | hp
    · rw [hz] at h3; omega
    · exact hp
  refine ⟨Nat.le_max_right _ _, ?_, ?_⟩
  · rcases hn with rfl | rfl
    · exact max_le_max h5 (Nat.le_refl 1)
    · exact Nat.le_refl _
  · rcases hn with rfl | rfl
    · rcases Nat.eq_zero_or_pos (a / b) with hz | hp
      · rw [hz] at h1 h2 ⊢
        simp only [Nat.max_eq_right (Nat.zero_le 1), Nat.one_mul, Nat.dist]
        omega
      · rw [Nat.max_eq_left hp]
        simp only [Nat.dist]
        omega
    · rw [Nat.max_eq_left hce]
      simp only [Nat.dist]
      omega

/-- An if-then-else equals one of its branches. -/
theorem iteEqOr {α : Type} (c : Prop) [Decidable c] (a b : α) :
    (if c then a else b) = a ∨ (if c then a else b) = b := by
  by_cases hc : c
  · exact Or.inl (if_pos hc)
  · exact Or.inr (if_neg hc)

theorem roundAspectW_core (w h y : Nat) (hh : 0 < h) (ha : 0 < y * w) :
    1 ≤ roundAspectW w h y ∧ roundAspectW w h y ≤ max (ceilDiv (y * w) h) 1 ∧
    Nat.dist (roundAspectW w h y * h) (y * w) < h := by
  simp only [roundAspectW]
  exact roundAspect_core (y * w) h _ hh ha (iteEqOr _ _ _)

theorem roundAspectH_core (w h x : Nat) (hw : 0 < w) (ha : 0 < x * h) :
    1 ≤ roundAspectH w h x ∧ roundAspectH w h x ≤ max (ceilDiv (x * h) w) 1 ∧
    Nat.dist (roundAspectH w h x * w) (x * h) < w := by
  simp only [roundAspectH]
  exact roundAspect_core (x * h) w _ hw ha (iteEqOr _ _ _)

/-- The PIL thumbnail box computation: both output sides fit the box, neither
side exceeds the source (no upscaling), and the aspect ratio is preserved
within one rounding step. -/
theorem thumbnailSize_spec (w h bx bh : Nat) (hw : 0 < w) (hh : 0 < h)
    (hbx : 0 < bx) (hbh : 0 < bh) :
    (thumbnailSize w h bx bh).1 ≤ bx ∧ (thumbnailSize w h bx bh).2 ≤ bh ∧
    (thumbnailSize w h bx bh).1 ≤ w ∧ (thumbnailSize w h bx bh).2 ≤ h ∧
    Nat.dist ((thumbnailSize w h bx bh).1 * h) ((thumbnailSize w h bx bh).2 * w)
      < max w h := by
  rw [thumbnailSize]
  split
  case isTrue hfit =>
    refine ⟨hfit.1, hfit.2, Nat.le_refl _, Nat.le_refl _, ?_⟩
    show Nat.dist (w * h) (h * w) < max w h
    have hd : Nat.dist (w * h) (h * w) = 0 := by
      rw [Nat.mul_comm w h, Nat.dist_self]
    omega
  case isFalse hnfit =>
    split
    case isTrue hW =>
      -- width branch: the box is relatively wider than the image
      have hbh_h : bh ≤ h := by
        by_contra hcon
        push_neg at hcon
        have hbxw : bx < w := by
          by_contra hcon2
          push_neg at hcon2
          exact hnfit ⟨hcon2, Nat.le_of_lt hcon⟩
        have c1 : bx * h < w * h := (Nat.mul_lt_mul_right hh).mpr hbxw
        have c2 : w * h < w * bh := (Nat.mul_lt_mul_left hw).mpr hcon
        omega
      have hcore := roundAspectW_core w h bh hh (Nat.mul_pos hbh hw)
      have hceb : ceilDiv (bh * w) h ≤ bx :=
        ceilDiv_le _ _ _ hh (by
          have hc : bh * w = w * bh := Nat.mul_comm bh w
          omega)
      have hcew : ceilDiv (bh * w) h ≤ w :=
        ceilDiv_le _ _ _ hh (by
          have h6 := Nat.mul_le_mul_right w hbh_h
          have h7 : h * w = w * h := Nat.mul_comm h w
          omega)
      refine ⟨?_, Nat.le_refl bh, ?_, hbh_h, ?_⟩
      · exact le_trans hcore.2.1 (Nat.max_le.mpr ⟨hceb, hbx⟩)
      · exact le_trans hcore.2.1 (Nat.max_le.mpr ⟨hcew, hw⟩)
      · exact lt_of_lt_of_le hcore.2.2 (Nat.le_max_right w h)
    case isFalse hW =>
      -- height branch: the box is relatively taller than the image
      have hWlt : bx * h < w * bh := Nat.lt_of_not_le hW
      have hbx_w : bx ≤ w := by
        by_contra hcon
        push_neg at hcon
        have hbh_lt : bh < h := by
          by_contra hcon2
          push_neg at hcon2
          exact hnfit ⟨Nat.le_of_lt hcon, hcon2⟩
        have c1 : w * bh < w * h := (Nat.mul_lt_mul_left hw).mpr hbh_lt
        have c2 : w * h < bx * h := (Nat.mul_lt_mul_right hh).mpr hcon
        omega
      have hcore := roundAspectH_core w h bx hw (Nat.mul_pos hbx hh)
      have hceb : ceilDiv (bx * h) w ≤ bh :=
        ceilDiv_le _ _ _ hw (by
          have hc : w * bh = bh * w := Nat.mul_comm w bh
          omega)
      have hceh : ceilDiv (bx * h) w ≤ h :=
        ceilDiv_le _ _ _ hw (by
          have h6 := Nat.mul_le_mul_right h hbx_w
          have h7 : h * w = w * h := Nat.mul_comm h w
          omega)
      refine ⟨Nat.le_refl bx, ?_, hbx_w, ?_, ?_⟩
      · exact le_trans hcore.2.1 (Nat.max_le.mpr ⟨hceb, hbh⟩)
      · exact le_trans hcore.2.1 (Nat.max_le.mpr ⟨hceh, hh⟩)
      · show Nat.dist (bx * h) (roundAspectH w h bx * w) < max w h
        rw [Nat.dist_comm]
        exact lt_of_lt_of_le hcore.2.2 (Nat.le_max_left w h)

theorem convert_preserves_size (img : PILImage) :
    (convertIfAlphaOrPalette img).width = img.width ∧
    (convertIfAlphaOrPalette img).height = img.height := by
  by_cases hm : img.mode = .RGBA ∨ img.mode = .LA ∨ img.mode = .P <;>
    simp [convertIfAlphaOrPalette, hm]

theorem makeVariant_spec (img : PILImage) (box q : Nat)
    (hw : 0 < img.width) (hh : 0 < img.height) (hbox : 0 < box) :
    (makeVariant img box q).format = .webp ∧ (makeVariant img box q).quality = q ∧
    (makeVariant img box q).width ≤ box ∧ (makeVariant img box q).height ≤ box ∧
    (makeVariant img box q).width ≤ img.width ∧
    (makeVariant img box q).height ≤ img.height ∧
    Nat.dist ((makeVariant img box q).width * img.height)
      ((makeVariant img box q).height * img.width) < max img.width img.height := by
  obtain ⟨hw2, hh2⟩ := convert_preserves_size img
  simp only [makeVariant]
  rw [hw2, hh2]
  have hs := thumbnailSize_spec img.width img.height box box hw hh hbox hbox
  exact ⟨trivial, trivial, hs.1, hs.2.1, hs.2.2.1, hs.2.2.2.1, hs.2.2.2.2⟩

/-- C3: for every decodable source image, the variant generator produces
exactly three outputs (one per box) whose pixel dimensions fit their bounding
boxes 1200×1200, 600×600 and 300×300 with encoder qualities 85, 80 and 75,
never exceed the source dimensions, preserve the aspect ratio within one
rounding step, and are all encoded in the single fixed format WEBP. -/
theorem variant_generator_spec (img : PILImage)
    (hw : 0 < img.width) (hh : 0 < img.height) :
    ((generateVariants img).1.format = .webp ∧
     (generateVariants img).2.1.format = .webp ∧
     (generateVariants img).2.2.format = .webp) ∧
    ((generateVariants img).1.quality = 85 ∧
     (generateVariants img).2.1.quality = 80 ∧
     (generateVariants img).2.2.quality = 75) ∧
    ((generateVariants img).1.width ≤ 1200 ∧ (generateVariants img).1.height ≤ 1200) ∧
    ((generateVariants img).2.1.width ≤ 600 ∧ (generateVariants img).2.1.height ≤ 600) ∧
    ((generateVariants img).2.2.width ≤ 300 ∧ (generateVariants img).2.2.height ≤ 300) ∧
    ((generateVariants img).1.width ≤ img.width ∧
     (generateVariants img).1.height ≤ img.height ∧
     (generateVariants img).2.1.width ≤ img.width ∧
     (generateVariants img).2.1.height ≤ img.height ∧
     (generateVariants img).2.2.width ≤ img.width ∧
     (generateVariants img).2.2.height ≤ img.height) ∧
    (Nat.dist ((generateVariants img).1.width * img.height)
        ((generateVariants img).1.height * img.width) < max img.width img.height ∧
     Nat.dist ((generateVariants img).2.1.width * img.height)
        ((generateVariants img).2.1.height * img.width) < max img.width img.height ∧
     Nat.dist ((generateVariants img).2.2.width * img.height)
        ((generateVariants img).2.2.height * img.width) < max img.width img.height) := by
  have h1 := makeVariant_spec img 1200 85 hw hh (by omega)
  have h2 := makeVariant_spec img 600 80 hw hh (by omega)
  have h3 := makeVariant_spec img 300 75 hw hh (by omega)
  exact ⟨⟨h1.1, h2.1, h3.1⟩, ⟨h1.2.1, h2.2.1, h3.2.1⟩,
    ⟨h1.2.2.1, h1.2.2.2.1⟩, ⟨h2.2.2.1, h2.2.2.2.1⟩, ⟨h3.2.2.1, h3.2.2.2.1⟩,
    ⟨h1.2.2.2.2.1, h1.2.2.2.2.2.1, h2.2.2.2.2.1, h2.2.2.2.2.2.1,
     h3.2.2.2.2.1, h3.2.2.2.2.2.1⟩,
    ⟨h1.2.2.2.2.2.2, h2.2.2.2.2.2.2, h3.2.2.2.2.2.2⟩⟩

/-- Witness for C3 at a concrete 2000×1000 RGB source image. -/
theorem variant_generator_spec_witness :
    (0:Nat) < 2000 ∧
    ((generateVariants ⟨.RGB, 2000, 1000, false⟩).1.width ≤ 1200 ∧
     (generateVariants ⟨.RGB, 2000, 1000, false⟩).2.2.format = .webp) :=
  ⟨by decide,
   (variant_generator_spec ⟨.RGB, 2000, 1000, false⟩ (by decide) (by decide)).2.2.1.1,
   (variant_generator_spec ⟨.RGB, 2000, 1000, false⟩ (by decide) (by decide)).1.2.2⟩

theorem webpSaveMode_rgb (img : PILImage) (h : img.mode = .RGB) :
    webpSaveMode img = .RGB := by
  rw [webpSaveMode, if_pos (Or.inl h), h]

/-- C8: every input image with an alpha channel or palette color mode
(`RGBA`, `LA` or `P`) is converted to plain `RGB` before resizing and
encoding, and consequently all three output variants are saved from an
alpha-free raw mode (fully opaque). -/
theorem alpha_or_palette_inputs_yield_opaque_variants (img : PILImage)
    (halpha : img.mode = .RGBA ∨ img.mode = .LA ∨ img.mode = .P) :
    (convertIfAlphaOrPalette img).mode = .RGB ∧
    (generateVariants img).1.mode = .RGB ∧
    (generateVariants img).2.1.mode = .RGB ∧
    (generateVariants img).2.2.mode = .RGB ∧
    (generateVariants img).1.mode.alphaChar = false ∧
    (generateVariants img).2.1.mode.alphaChar = false ∧
    (generateVariants img).2.2.mode.alphaChar = false := by
  have hc : (convertIfAlphaOrPalette img).mode = .RGB := by
    rw [convertIfAlphaOrPalette, if_pos halpha]
  have hm : webpSaveMode (convertIfAlphaOrPalette img) = .RGB := webpSaveMode_rgb _ hc
  refine ⟨hc, hm, hm, hm, ?_, ?_, ?_⟩ <;>
    · show (webpSaveMode (convertIfAlphaOrPalette img)).alphaChar = false
      rw [hm]
      rfl

/-- Witness for C8 at a concrete RGBA input. -/
theorem alpha_or_palette_witness :
    (convertIfAlphaOrPalette ⟨.RGBA, 10, 5, true⟩).mode = .RGB ∧
    (generateVariants ⟨.RGBA, 10, 5, true⟩).1.mode.alphaChar = false :=
  ⟨(alpha_or_palette_inputs_yield_opaque_variants ⟨.RGBA, 10, 5, true⟩ (Or.inl rfl)).1,
   (alpha_or_palette_inputs_yield_opaque_variants ⟨.RGBA, 10, 5, true⟩
     (Or.inl rfl)).2.2.2.2.1⟩

theorem storageUrl_ne_empty (key : String) : storageUrl key ≠ "" := by
  intro h
  have hlen : (storageUrl key).length = 0 := by rw [h]; rfl
  rw [storageUrl] at hlen
  simp only [String.length_append] at hlen
  have h8 : "https://".length = 8 := rfl
  omega

/-- One case analysis over an upload run: on any error the database is
untouched; on success the row is appended, all four saves succeeded, the
store grew by exactly four blobs, the row's URL fields are the storage URLs
of the four keys, and its sort index is `max + 1`. -/
theorem upload_run_characterization (w : UploadWorld) (product : Product)
    (image_file : UploadFile) (alt_text : String) (store : Store) (db : DB) :
    (∀ e, (process_and_upload_product_image w product image_file alt_text
        store db).result = .error e →
      (process_and_upload_product_image w product image_file alt_text
        store db).db = db) ∧
    (∀ row, (process_and_upload_product_image w product image_file alt_text
        store db).result = .ok row →
      (process_and_upload_product_image w product image_file alt_text
        store db).db.rows = db.rows ++ [row] ∧
      (w.saveOk 0 = true ∧ w.saveOk 1 = true ∧ w.saveOk 2 = true ∧
        w.saveOk 3 = true) ∧
      (process_and_upload_product_image w product image_file alt_text
        store db).store.length = store.length + 4 ∧
      (row.url_original ≠ "" ∧ row.url_lg ≠ "" ∧ row.url_md ≠ "" ∧
        row.url_sm ≠ "") ∧
      row.productId = product.id ∧ row.id = db.nextId ∧
      row.alt = alt_text ∧
      row.sort = maxSortForProduct db product.id + 1) := by
  rw [process_and_upload_product_image]
  cases himg : image_file.image with
  | none =>
    exact ⟨fun e _ => rfl, fun row hrow => by simp at hrow⟩
  | some img =>
    by_cases hload : image_file.loadOk
    · simp only [hload, not_true_eq_false, if_false]
      by_cases hs0 : w.saveOk 0
      · simp only [hs0, not_true_eq_false, if_false]
        by_cases hs1 : w.saveOk 1
        · simp only [hs1, not_true_eq_false, if_false]
          by_cases hs2 : w.saveOk 2
          · simp only [hs2, not_true_eq_false, if_false]
            by_cases hs3 : w.saveOk 3
            · simp only [hs3, not_true_eq_false, if_false]
              refine ⟨fun e he => by simp at he, fun row hrow => ?_⟩
              have hrow2 := hrow
              simp only [Except.ok.injEq] at hrow2
              subst hrow2
              refine ⟨rfl, ⟨trivial, trivial, trivial, trivial⟩, ?_,
                ⟨storageUrl_ne_empty _, storageUrl_ne_empty _,
                 storageUrl_ne_empty _, storageUrl_ne_empty _⟩,
                rfl, rfl, rfl, rfl⟩
              simp [storageSave]
            · simp only [hs3]
              exact ⟨fun e _ => rfl, fun row hrow => by simp at hrow⟩
          · simp only [hs2]
            exact ⟨fun e _ => rfl, fun row hrow => by simp at hrow⟩
        · simp only [hs1]
          exact ⟨fun e _ => rfl, fun row hrow => by simp at hrow⟩
      · simp only [hs0]
        exact ⟨fun e _ => rfl, fun row hrow => by simp at hrow⟩
    · simp only [hload]
      exact ⟨fun e _ => rfl, fun row hrow => by simp at hrow⟩

/-- C1: a metadata row is created only after all four blob writes (large,
medium, small, original) succeeded; every persisted row has all four URL
fields non-blank; and if the decode/variant generation or any blob write
raises, the database is left without a row for the request. -/
theorem upload_no_partial_row (w : UploadWorld) (product : Product)
    (image_file : UploadFile) (alt_text : String) (store : Store) (db : DB) :
    (∀ e, (process_and_upload_product_image w product image_file alt_text
        store db).result = .error e →
      (process_and_upload_product_image w product image_file alt_text
        store db).db = db) ∧
    (∀ row, (process_and_upload_product_image w product image_file alt_text
        store db).result = .ok row →
      (w.saveOk 0 = true ∧ w.saveOk 1 = true ∧ w.saveOk 2 = true ∧
        w.saveOk 3 = true) ∧
      (process_and_upload_product_image w product image_file alt_text
        store db).store.length = store.length + 4 ∧
      (process_and_upload_product_image w product image_file alt_text
        store db).db.rows = db.rows ++ [row] ∧
      row.url_original ≠ "" ∧ row.url_lg ≠ "" ∧ row.url_md ≠ "" ∧
      row.url_sm ≠ "") := by
  obtain ⟨herr, hok⟩ := upload_run_characterization w product image_file
    alt_text store db
  refine ⟨herr, fun row hrow => ?_⟩
  obtain ⟨h1, h2, h3, h4, _⟩ := hok row hrow
  exact ⟨h2, h3, h1, h4.1, h4.2.1, h4.2.2.1, h4.2.2.2⟩

/-- Witness for C1 at the concrete successful run. -/
theorem upload_no_partial_row_witness :
    runOk.db.rows = dbEmpty.rows ++ [rowOk] ∧ rowOk.url_lg ≠ "" ∧
    runOk.store.length = 4 :=
  let h := (upload_no_partial_row wAllOk ⟨7⟩ fileOk "alt text" [] dbEmpty).2
    rowOk rfl
  ⟨h.2.2.1, h.2.2.2.2.1, h.2.1⟩

theorem le_foldr_max (l : List Nat) (x : Nat) (hx : x ∈ l) :
    x ≤ l.foldr max 0 := by
  induction l with
  | nil => cases hx
  | cons a t ih =>
    rcases List.mem_cons.mp hx with rfl | hmem
    · exact Nat.le_max_left _ _
    · exact le_trans (ih hmem) (Nat.le_max_right _ _)

theorem maxSortForProduct_ge (db : DB) (pid : Nat) (r : ProductImage)
    (hr : r ∈ db.rows) (hpid : r.productId = pid) :
    r.sort ≤ maxSortForProduct db pid := by
  apply le_foldr_max
  exact List.mem_map_of_mem _ (List.mem_filter.mpr ⟨hr, by simp [hpid]⟩)

theorem maxSortForProduct_empty (db : DB) (pid : Nat)
    (h : ∀ r ∈ db.rows, r.productId ≠ pid) : maxSortForProduct db pid = 0 := by
  rw [maxSortForProduct]
  have hfil : db.rows.filter (fun r => r.productId = pid) = [] := by
    rw [List.filter_eq_nil_iff]
    intro a ha
    simp [h a ha]
  rw [hfil]
  rfl

/-- C4: the sort index assigned to a newly created image is 1 plus the
maximum sort index among the product's existing images (so strictly above
every existing one), and is 1 when the product has no images. -/
theorem upload_sort_index_policy (w : UploadWorld) (product : Product)
    (image_file : UploadFile) (alt_text : String) (store : Store) (db : DB)
    (row : ProductImage)
    (hrow : (process_and_upload_product_image w product image_file alt_text
      store db).result = .ok row) :
    row.sort = maxSortForProduct db product.id + 1 ∧
    (∀ r ∈ db.rows, r.productId = product.id → r.sort < row.sort) ∧
    ((∀ r ∈ db.rows, r.productId ≠ product.id) → row.sort = 1) := by
  have hs := ((upload_run_characterization w product image_file alt_text
    store db).2 row hrow).2.2.2.2.2.2.2
  refine ⟨hs, ?_, ?_⟩
  · intro r hr hpid
    rw [hs]
    exact Nat.lt_succ_of_le (maxSortForProduct_ge db product.id r hr hpid)
  · intro hnone
    rw [hs, maxSortForProduct_empty db product.id hnone]

/-- Witness for C4: the first upload to an empty product gets sort 1, the
second gets sort 2. -/
theorem upload_sort_index_policy_witness : rowOk.sort = 1 ∧ rowOk2.sort = 2 := by
  have h1 := upload_sort_index_policy wAllOk ⟨7⟩ fileOk "alt text" [] dbEmpty
    rowOk rfl
  have h2 := upload_sort_index_policy wAllOk ⟨7⟩ fileOk "second" runOk.store
    runOk.db rowOk2 rfl
  constructor
  · exact h1.2.2 (by intro r hr; simp [dbEmpty] at hr)
  · rw [h2.1]
    decide

/-- C5: whenever the delete view locates an existing image of the target
product, the metadata row is removed and a 204 returned, for every storage
world — including ones where each blob delete raises; blob-deletion errors
are swallowed and never prevent the row deletion. -/
theorem delete_view_always_removes_row (w : DeleteWorld)
    (products : List Product) (db : DB) (store : Store)
    (product_id image_id : Nat) (prod : Product) (image : ProductImage)
    (hprod : products.find? (fun p => p.id == product_id) = some prod)
    (himg : db.rows.find? (fun r => (r.id == image_id) &&
      (r.productId == product_id)) = some image) :
    (productImageDeleteView w products db store product_id image_id).status =
      .noContent204 ∧
    (productImageDeleteView w products db store product_id image_id).db.rows =
      db.rows.filter (fun r => r.id ≠ image_id) ∧
    (∀ r ∈ (productImageDeleteView w products db store product_id
        image_id).db.rows, r.id ≠ image_id) := by
  rw [productImageDeleteView, hprod, himg]
  refine ⟨rfl, rfl, ?_⟩
  intro r hr
  have hmem := List.mem_filter.mp hr
  simpa using hmem.2

/-- Witness for C5: with every blob delete raising, the row is still
removed and the view answers 204. -/
theorem delete_view_always_removes_row_witness :
    (productImageDeleteView wDelAllFail [⟨1⟩] ⟨[imgRow5], 6⟩ [] 1 5).status =
      .noContent204 ∧
    (productImageDeleteView wDelAllFail [⟨1⟩] ⟨[imgRow5], 6⟩ [] 1 5).db.rows =
      [] := by
  have h := delete_view_always_removes_row wDelAllFail [⟨1⟩] ⟨[imgRow5], 6⟩ []
    1 5 ⟨1⟩ imgRow5 rfl rfl
  refine ⟨h.1, ?_⟩
  rw [h.2.1]
  decide

theorem deleteFilesLoop_collects (w : DeleteWorld) (l : List (Nat × String))
    (store : Store) :
    (deleteFilesLoop w l store).2.1 =
      (l.filter (fun p => (p.2 != "") && (extract_key_from_url p.2 != "") &&
        w.deleteOk p.1)).map (fun p => extract_key_from_url p.2) ∧
    (deleteFilesLoop w l store).2.2 =
      (l.filter (fun p => (p.2 != "") && (extract_key_from_url p.2 != "") &&
        w.deleteOk p.1)).map (fun p => "/" ++ extract_key_from_url p.2) := by
  induction l generalizing store with
  | nil => exact ⟨rfl, rfl⟩
  | cons hd tl ih =>
    obtain ⟨i, url⟩ := hd
    by_cases hu : url ≠ ""
    · by_cases hk : extract_key_from_url url ≠ ""
      · by_cases hdel : w.deleteOk i
        · simp [deleteFilesLoop, hu, hk, hdel, bne_iff_ne, ih]
        · simp [deleteFilesLoop, hu, hk, hdel, bne_iff_ne, ih]
      · simp [deleteFilesLoop, hu, hk, bne_iff_ne, ih]
    · simp [deleteFilesLoop, hu, bne_iff_ne, ih]

/-- C10: the path set handed to the cache invalidator is exactly the
`/`-prefixed keys of the URL fields whose `storage.delete` call succeeded
(fields with blank URLs, unextractable keys, or raising deletes are
excluded), and the invalidator runs exactly when that set is non-empty. -/
theorem delete_invalidation_paths (w : DeleteWorld)
    (product_image : ProductImage) (store : Store) :
    (delete_product_image_files w product_image store).paths_to_invalidate =
      ((urlFields product_image).enum.filter (fun p => (p.2 != "") &&
        (extract_key_from_url p.2 != "") && w.deleteOk p.1)).map
        (fun p => "/" ++ extract_key_from_url p.2) ∧
    ((delete_product_image_files w product_image store).paths_to_invalidate =
        [] →
      (delete_product_image_files w product_image store).cfResult = none) ∧
    ((delete_product_image_files w product_image store).paths_to_invalidate ≠
        [] →
      (delete_product_image_files w product_image store).cfResult =
        some (invalidate_cloudfront_cache w.cf
          (delete_product_image_files w product_image
            store).paths_to_invalidate)) := by
  have hloop := (deleteFilesLoop_collects w (urlFields product_image).enum
    store).2
  simp only [delete_product_image_files]
  by_cases hp : (deleteFilesLoop w (urlFields product_image).enum store).2.2 = []
  · rw [if_neg (by simpa using hp)]
    exact ⟨by rw [← hloop], fun _ => rfl, fun hne => absurd hp hne⟩
  · rw [if_pos hp]
    exact ⟨by rw [← hloop], fun hc => absurd hc hp, fun _ => rfl⟩

/-- Witness for C10: when every delete raises, the path set is empty and
the invalidator is never invoked. -/
theorem delete_invalidation_paths_witness :
    (delete_product_image_files wDelAllFail imgRow5 []).paths_to_invalidate =
      [] ∧
    (delete_product_image_files wDelAllFail imgRow5 []).cfResult = none := by
  have h := delete_invalidation_paths wDelAllFail imgRow5 []
  have hp : (delete_product_image_files wDelAllFail
      imgRow5 []).paths_to_invalidate = [] := by
    rw [h.1]
    simp [wDelAllFail]
  exact ⟨hp, h.2.1 hp⟩

theorem deleteFilesLoop_cf_irrel (dok : Nat → Bool) (cf₁ cf₂ : CFWorld)
    (l : List (Nat × String)) (store : Store) :
    deleteFilesLoop ⟨dok, cf₁⟩ l store = deleteFilesLoop ⟨dok, cf₂⟩ l store := by
  induction l generalizing store with
  | nil => rfl
  | cons hd tl ih =>
    obtain ⟨i, url⟩ := hd
    by_cases hu : url ≠ ""
    · by_cases hk : extract_key_from_url url ≠ ""
      · by_cases hdel : dok i
        · simp [deleteFilesLoop, hu, hk, hdel, ih]
        · simp [deleteFilesLoop, hu, hk, hdel, ih]
      · simp [deleteFilesLoop, hu, hk, ih]
    · simp [deleteFilesLoop, hu, ih]

/-- C7: the cache invalidator makes at most one provider call per batch, is
a deliberate no-op (not an error) when the distribution id is missing or
the path set is empty, and any provider outcome is swallowed: the delete
view's status, database and store are identical whatever the provider call
does, so an invalidation failure never surfaces or undoes the deletion. -/
theorem cache_invalidator_contract (w : CFWorld) (paths : List String) :
    (invalidate_cloudfront_cache w paths).calls.length ≤ 1 ∧
    (w.cfg.distributionId = none →
      invalidate_cloudfront_cache w paths = ⟨[], false⟩) ∧
    (paths = [] → (invalidate_cloudfront_cache w paths).calls = []) ∧
    (∀ (dok : Nat → Bool) (products : List Product) (db : DB) (store : Store)
        (pid iid : Nat) (o₂ : CFCallOutcome),
      (productImageDeleteView ⟨dok, w⟩ products db store pid iid).status =
        (productImageDeleteView ⟨dok, ⟨w.cfg, o₂⟩⟩ products db store pid
          iid).status ∧
      (productImageDeleteView ⟨dok, w⟩ products db store pid iid).db =
        (productImageDeleteView ⟨dok, ⟨w.cfg, o₂⟩⟩ products db store pid
          iid).db ∧
      (productImageDeleteView ⟨dok, w⟩ products db store pid iid).store =
        (productImageDeleteView ⟨dok, ⟨w.cfg, o₂⟩⟩ products db store pid
          iid).store) := by
  refine ⟨?_, ?_, ?_, ?_⟩
  · rw [invalidate_cloudfront_cache]
    split
    · simp
    · split
      · simp
      · split
        · split <;> simp
        · simp
  · intro hnone
    rw [invalidate_cloudfront_cache, hnone]
  · intro hempty
    subst hempty
    rw [invalidate_cloudfront_cache]
    split
    · rfl
    · rfl
  · intro dok products db store pid iid o₂
    rw [productImageDeleteView, productImageDeleteView]
    cases hp : products.find? (fun p => p.id == pid) with
    | none => exact ⟨rfl, rfl, rfl⟩
    | some prod =>
      cases hi : db.rows.find? (fun r => (r.id == iid) &&
          (r.productId == pid)) with
      | none => exact ⟨rfl, rfl, rfl⟩
      | some image =>
        refine ⟨rfl, rfl, ?_⟩
        show (delete_product_image_files ⟨dok, w⟩ image store).store =
          (delete_product_image_files ⟨dok, ⟨w.cfg, o₂⟩⟩ image store).store
        simp only [delete_product_image_files]
        rw [deleteFilesLoop_cf_irrel dok w ⟨w.cfg, o₂⟩]
        split <;> rfl

/-- Witness for C7: missing distribution id is a no-op even with a failing
provider, and an empty path batch makes no provider call. -/
theorem cache_invalidator_contract_witness :
    invalidate_cloudfront_cache
      ⟨⟨none, some "key", some "secret"⟩, .clientError "AccessDenied" "denied"⟩
      ["/products/lg/a.webp"] = ⟨[], false⟩ ∧
    (invalidate_cloudfront_cache
      ⟨⟨some "DIST", some "key", some "secret"⟩, .noCredentialsError⟩
      []).calls = [] :=
  ⟨(cache_invalidator_contract
      ⟨⟨none, some "key", some "secret"⟩, .clientError "AccessDenied" "denied"⟩
      ["/products/lg/a.webp"]).2.1 rfl,
   (cache_invalidator_contract
      ⟨⟨some "DIST", some "key", some "secret"⟩, .noCredentialsError⟩
      []).2.2.1 rfl⟩

/-- C2 counterexample: uploading a payload that cannot be decoded as an
image is answered with 400 (the DRF `ImageField` rejects it during
serializer validation), not with the 500/`ImageProcessingError` path the
claim asserts. -/
theorem upload_text_file_counterexample :
    (productImageUploadPost wAllOk [⟨7⟩] [] dbEmpty 7 textFilePayload).status =
      .badRequest400 ∧
    (productImageUploadPost wAllOk [⟨7⟩] [] dbEmpty 7 textFilePayload).status ≠
      .serverError500 := ⟨rfl, by decide⟩

/-- C2 (amended): an upload whose image field cannot be decoded as an image
is rejected by the `ImageField` serializer validation with a 400 validation
error — it never reaches the service — and creates zero metadata rows and
zero blobs. -/
theorem upload_undecodable_rejected_as_validation_error (w : UploadWorld)
    (products : List Product) (store : Store) (db : DB) (product_id : Nat)
    (data : UploadPayload) (f : UploadFile) (prod : Product)
    (himg : data.image = some f) (hdec : f.image = none)
    (hprod : products.find? (fun p => p.id == product_id) = some prod) :
    (productImageUploadPost w products store db product_id data).status =
      .badRequest400 ∧
    (productImageUploadPost w products store db product_id data).db = db ∧
    (productImageUploadPost w products store db product_id data).store =
      store := by
  rw [productImageUploadPost, hprod, runUploadSerializer, himg]
  simp [hdec]

/-- Witness for amended C2: the concrete text-file upload leaves the table
and the store untouched. -/
theorem upload_undecodable_rejected_witness :
    (productImageUploadPost wAllOk [⟨7⟩] [] dbEmpty 7 textFilePayload).db =
      dbEmpty ∧
    (productImageUploadPost wAllOk [⟨7⟩] [] dbEmpty 7 textFilePayload).store =
      [] :=
  let h := upload_undecodable_rejected_as_validation_error wAllOk [⟨7⟩] []
    dbEmpty 7 textFilePayload ⟨"notes.txt", none, false⟩ ⟨7⟩ rfl rfl rfl
  ⟨h.2.1, h.2.2⟩

theorem uploadRespond_body (o : UploadOutcome) (row : ProductImage)
    (h : (uploadRespond o).body = some row) : o.result = .ok row := by
  rw [uploadRespond] at h
  cases ho : o.result with
  | error e => rw [ho] at h; simp at h
  | ok r =>
    rw [ho] at h
    simp only [Option.some.injEq] at h
    rw [h]

theorem runUploadSerializer_some (data : UploadPayload) (f : UploadFile)
    (h : data.image = some f) :
    runUploadSerializer data =
      (if f.image.isNone then .error ()
       else if (match data.alt with | none => false | some a => decide (255 < a.length)) then .error ()
       else if (match data.sort with | none => false | some s => decide (s < 0)) then .error ()
       else .ok ⟨f, data.alt.getD "", data.sort.getD 0⟩) := by
  rw [runUploadSerializer, h]

theorem serializer_ignores_sort_value (p₁ p₂ : UploadPayload)
    (himg : p₁.image = p₂.image) (halt : p₁.alt = p₂.alt)
    (h₁ : sortFieldValid p₁.sort = true) (h₂ : sortFieldValid p₂.sort = true) :
    (runUploadSerializer p₁ = .error () ∧ runUploadSerializer p₂ = .error ()) ∨
    (∃ f a s₁ s₂, runUploadSerializer p₁ = .ok ⟨f, a, s₁⟩ ∧
      runUploadSerializer p₂ = .ok ⟨f, a, s₂⟩) := by
  have hs₁ : (match p₁.sort with | none => false | some s => decide (s < 0))
      = false := by
    cases hps : p₁.sort with
    | none => rfl
    | some s =>
      rw [hps] at h₁
      simp only [sortFieldValid, decide_eq_true_eq] at h₁
      simp only [decide_eq_false_iff_not]
      omega
  have hs₂ : (match p₂.sort with | none => false | some s => decide (s < 0))
      = false := by
    cases hps : p₂.sort with
    | none => rfl
    | some s =>
      rw [hps] at h₂
      simp only [sortFieldValid, decide_eq_true_eq] at h₂
      simp only [decide_eq_false_iff_not]
      omega
  cases hpi : p₂.image with
  | none =>
    rw [runUploadSerializer, runUploadSerializer, himg, hpi]
    exact Or.inl ⟨rfl, rfl⟩
  | some f =>
    have e₁ := runUploadSerializer_some p₁ f (himg.trans hpi)
    have e₂ := runUploadSerializer_some p₂ f hpi
    rw [e₁, e₂, halt, hs₁, hs₂]
    cases hfi : f.image.isNone with
    | true => exact Or.inl ⟨rfl, rfl⟩
    | false =>
      cases hal : (match p₂.alt with | none => false | some a => decide (255 < a.length)) with
      | true => exact Or.inl ⟨rfl, rfl⟩
      | false =>
        exact Or.inr ⟨f, p₂.alt.getD "", p₁.sort.getD 0, p₂.sort.getD 0,
          rfl, rfl⟩

/-- C9: the optional `sort` field of the upload payload has no effect: two
requests identical except for a (valid) `sort` value produce the same
status, table, store and body, and any created row's sort index is
`max(existing) + 1` — the validated sort override is never read by the
orchestrator. -/
theorem upload_sort_field_ignored (w : UploadWorld) (products : List Product)
    (store : Store) (db : DB) (product_id : Nat) (p₁ p₂ : UploadPayload)
    (himg : p₁.image = p₂.image) (halt : p₁.alt = p₂.alt)
    (h₁ : sortFieldValid p₁.sort = true) (h₂ : sortFieldValid p₂.sort = true) :
    (productImageUploadPost w products store db product_id p₁).status =
      (productImageUploadPost w products store db product_id p₂).status ∧
    (productImageUploadPost w products store db product_id p₁).db =
      (productImageUploadPost w products store db product_id p₂).db ∧
    (productImageUploadPost w products store db product_id p₁).store =
      (productImageUploadPost w products store db product_id p₂).store ∧
    (productImageUploadPost w products store db product_id p₁).body =
      (productImageUploadPost w products store db product_id p₂).body ∧
    (∀ row, (productImageUploadPost w products store db product_id p₁).body =
        some row →
      row.sort = maxSortForProduct db product_id + 1) := by
  rw [productImageUploadPost, productImageUploadPost]
  cases hp : products.find? (fun p => p.id == product_id) with
  | none => exact ⟨rfl, rfl, rfl, rfl, fun row h => by simp at h⟩
  | some prod =>
    have hpid : prod.id = product_id := by
      have := List.find?_some hp
      simpa using this
    rcases serializer_ignores_sort_value p₁ p₂ himg halt h₁ h₂ with
      ⟨he₁, he₂⟩ | ⟨f, a, s₁, s₂, ho₁, ho₂⟩
    · rw [he₁, he₂]
      exact ⟨rfl, rfl, rfl, rfl, fun row h => by simp at h⟩
    · rw [ho₁, ho₂]
      refine ⟨rfl, rfl, rfl, rfl, ?_⟩
      intro row hrow
      have hok : (process_and_upload_product_image w prod f a.trim
          store db).result = .ok row := uploadRespond_body _ row hrow
      have hchar := ((upload_run_characterization w prod f a.trim store
        db).2 row hok).2.2.2.2.2.2.2
      rw [hpid] at hchar
      exact hchar

/-- Witness for C9: two concrete uploads differing only in the sort value
produce identical responses. -/
theorem upload_sort_field_ignored_witness :
    (productImageUploadPost wAllOk [⟨7⟩] [] dbEmpty 7 payloadSortA).body =
      (productImageUploadPost wAllOk [⟨7⟩] [] dbEmpty 7 payloadSortB).body ∧
    (productImageUploadPost wAllOk [⟨7⟩] [] dbEmpty 7 payloadSortA).status =
      (productImageUploadPost wAllOk [⟨7⟩] [] dbEmpty 7 payloadSortB).status :=
  let h := upload_sort_field_ignored wAllOk [⟨7⟩] [] dbEmpty 7 payloadSortA
    payloadSortB rfl rfl (by decide) (by decide)
  ⟨h.2.2.2.1, h.1⟩

theorem belongsTo_update (pid iid : Nat) (rows : List ProductImage)
    (item : ReorderItem) :
    belongsTo pid (rows.map (fun r =>
      if r.id = item.id then { r with sort := item.sort } else r)) iid =
    belongsTo pid rows iid := by
  rw [belongsTo, belongsTo, List.any_map]
  congr 1
  funext r
  by_cases h : r.id = item.id <;> simp [h]

theorem applyReorder_spec (pid : Nat) (good : List ReorderItem)
    (bad : ReorderItem) (rest : List ReorderItem) (rows : List ProductImage)
    (hgood : ∀ item ∈ good, belongsTo pid rows item.id = true)
    (hbad : belongsTo pid rows bad.id = false) :
    applyReorder pid (good ++ bad :: rest) rows =
      (applyUpdates good rows, some bad.id) := by
  induction good generalizing rows with
  | nil =>
    rw [List.nil_append, applyReorder, if_neg]
    · rfl
    · show ¬ belongsTo pid rows bad.id = true
      rw [hbad]
      simp
  | cons it t ih =>
    rw [List.cons_append, applyReorder, if_pos]
    · have hrec := ih (rows.map (fun r =>
        if r.id = it.id then { r with sort := it.sort } else r))
        (fun item hm => by
          rw [belongsTo_update]
          exact hgood item (List.mem_cons_of_mem it hm))
        (by rw [belongsTo_update]; exact hbad)
      rw [hrec]
      rfl
    · show belongsTo pid rows it.id = true
      exact hgood it (List.mem_cons_self it t)

/-- C6: a reorder batch is applied pair by pair in list order; the first
pair whose id does not belong to the target product aborts the batch with a
validation error naming that id, while the sort updates of the earlier
pairs remain applied (no rollback). -/
theorem reorder_aborts_at_first_foreign_id (products : List Product)
    (db : DB) (product_id : Nat) (good : List ReorderItem)
    (bad : ReorderItem) (rest : List ReorderItem) (prod : Product)
    (hprod : products.find? (fun p => p.id == product_id) = some prod)
    (hgood : ∀ item ∈ good, belongsTo product_id db.rows item.id = true)
    (hbad : belongsTo product_id db.rows bad.id = false) :
    productImageReorderView products db product_id (good ++ bad :: rest) =
      ⟨.badRequest400, ⟨applyUpdates good db.rows, db.nextId⟩, some bad.id⟩ := by
  rw [productImageReorderView, hprod,
    applyReorder_spec product_id good bad rest db.rows hgood hbad]

/-- Witness for C6: the batch `[{id 5, sort 9}, {id 99, sort 3}]` on a
product owning ids 5 and 6 answers 400 naming id 99, and the update of id 5
remains applied. -/
theorem reorder_aborts_witness :
    (productImageReorderView [⟨1⟩] ⟨[rowA, rowB], 7⟩ 1
      [⟨5, 9⟩, ⟨99, 3⟩]).status = .badRequest400 ∧
    (productImageReorderView [⟨1⟩] ⟨[rowA, rowB], 7⟩ 1
      [⟨5, 9⟩, ⟨99, 3⟩]).invalidId = some 99 ∧
    (productImageReorderView [⟨1⟩] ⟨[rowA, rowB], 7⟩ 1
      [⟨5, 9⟩, ⟨99, 3⟩]).db.rows = [{ rowA with sort := 9 }, rowB] := by
  have h : productImageReorderView [⟨1⟩] ⟨[rowA, rowB], 7⟩ 1
      [⟨5, 9⟩, ⟨99, 3⟩] =
      ⟨.badRequest400, ⟨applyUpdates [⟨5, 9⟩] [rowA, rowB], 7⟩, some 99⟩ :=
    reorder_aborts_at_first_foreign_id [⟨1⟩] ⟨[rowA, rowB], 7⟩ 1
      [⟨5, 9⟩] ⟨99, 3⟩ [] ⟨1⟩ rfl (by decide) (by decide)
  rw [h]
  exact ⟨rfl, rfl, rfl⟩
